import Mathlib
/-!
Verification of the microut unit-testing engine (src/microut.h) against its
specification.

Shallow embedding notes.

* `struct __ut_test_desc` (microut.h lines 38-48) becomes the structure
  `__ut_test_desc`.  The constant metadata fields `description`, `file` and
  `line` never influence execution and are omitted; `name` is kept.  The
  `func` field (the test body) is modelled as the straight-line sequence of
  `UT_ASSERT` invocations the body performs: a list of
  (condition value, message) pairs.  A `NULL` body is the list terminator in
  C (`UT_TEST_SUITE_END`); here the explicit end of the `test_descs` list
  plays that role, so every listed descriptor has a real body.
* `struct __ut_test_suite_desc` (lines 60-72) becomes `__ut_test_suite_desc`;
  the four hooks are likewise assertion scripts.
* The `unsigned int` counters are modelled as `Nat`: the engine only ever
  increments them by one per assertion or per test and resets them to zero,
  and no behaviour depends on wrap-around.
* The observer macros `UT_ON_SUCCESSFUL_ASSERT`, `UT_ON_FAILED_ASSERT`,
  `UT_ON_SUCCESSFUL_TEST`, `UT_ON_FAILED_TEST` are user-configured,
  side-effect-only hooks (supplied by config.h); runs therefore also produce
  an event trace recording each observer call and, in addition, each hook /
  body invocation, so that claims about what fires and in which order are
  statable.
-/
/-- One test descriptor (`struct __ut_test_desc`).  `func` is the body's
sequence of `UT_ASSERT` calls: condition value paired with the message. -/
structure __ut_test_desc where
  name : String
  func : List (Bool × String)
  started : Bool
  performed_count : Nat
  successed_count : Nat
deriving DecidableEq
/-- One test-suite descriptor (`struct __ut_test_suite_desc`); the four hook
function pointers are modelled as their `UT_ASSERT` scripts. -/
structure __ut_test_suite_desc where
  name : String
  startup : List (Bool × String)
  teardown : List (Bool × String)
  before_each : List (Bool × String)
  after_each : List (Bool × String)
  test_descs : List __ut_test_desc
  started : Bool
  performed_count : Nat
  successed_count : Nat
deriving DecidableEq
/-- Observable events of a run: the four observer hooks of config.h plus an
entry for each hook/body invocation made by `__ut_run_test_suite`. -/
inductive UTEvent where
  | assertPassed (msg : String)
  | assertFailed (msg : String)
  | startupInvoked
  | beforeEachInvoked (i : Nat)
  | bodyInvoked (i : Nat)
  | afterEachInvoked (i : Nat)
  | teardownInvoked
  | testPassedObserver (d : __ut_test_desc)
  | testFailedObserver (d : __ut_test_desc)
deriving DecidableEq
/-- Execution of a sequence of `UT_ASSERT(assertion, message)` statements
(microut.h lines 84-104) against a descriptor whose counters currently read
`(p, s)`.  Each assertion first increments `performed_count`; a true condition
also increments `successed_count` and fires `UT_ON_SUCCESSFUL_ASSERT`, a false
condition fires `UT_ON_FAILED_ASSERT` and `return`s from the enclosing
function, so the remaining assertions are not executed. -/
def runAsserts : List (Bool × String) → Nat → Nat → Nat × Nat × List UTEvent
  | [], p, s => (p, s, [])
  | (b, m) :: rest, p, s =>
    if b then
      let r := runAsserts rest (p + 1) (s + 1)
      (r.1, r.2.1, UTEvent.assertPassed m :: r.2.2)
    else
      (p + 1, s, [UTEvent.assertFailed m])
/-- Number of assertions actually performed by a script (it stops after the
first false condition). -/
def assertsPerformed : List (Bool × String) → Nat
  | [] => 0
  | (b, _) :: rest => if b then assertsPerformed rest + 1 else 1
/-- Number of successful assertions of a script. -/
def assertsSuccessed : List (Bool × String) → Nat
  | [] => 0
  | (b, _) :: rest => if b then assertsSuccessed rest + 1 else 0
/-- Assertion-observer events a script emits. -/
def assertEvents : List (Bool × String) → List UTEvent
  | [] => []
  | (b, m) :: rest =>
    if b then UTEvent.assertPassed m :: assertEvents rest
    else [UTEvent.assertFailed m]
/-- `UT_IS_TEST_STARTED` (line 188). -/
def UT_IS_TEST_STARTED (d : __ut_test_desc) : Bool := d.started
/-- `UT_IS_TEST_SKIPPED` (line 195). -/
def UT_IS_TEST_SKIPPED (d : __ut_test_desc) : Bool := ! UT_IS_TEST_STARTED d
/-- `UT_IS_TEST_SUCCESSED` (line 202). -/
def UT_IS_TEST_SUCCESSED (d : __ut_test_desc) : Bool :=
  UT_IS_TEST_STARTED d && d.performed_count == d.successed_count
/-- `UT_IS_TEST_FAILED` (line 209). -/
def UT_IS_TEST_FAILED (d : __ut_test_desc) : Bool := ! UT_IS_TEST_SUCCESSED d
/-- `UT_IS_TEST_SUITE_STARTED` (line 216). -/
def UT_IS_TEST_SUITE_STARTED (sd : __ut_test_suite_desc) : Bool := sd.started
/-- `UT_IS_TEST_SUITE_SKIPPED` (line 223). -/
def UT_IS_TEST_SUITE_SKIPPED (sd : __ut_test_suite_desc) : Bool :=
  ! UT_IS_TEST_SUITE_STARTED sd
/-- `UT_IS_TEST_SUITE_SUCCESSED` (line 230). -/
def UT_IS_TEST_SUITE_SUCCESSED (sd : __ut_test_suite_desc) : Bool :=
  UT_IS_TEST_SUITE_STARTED sd && sd.performed_count == sd.successed_count
/-- `UT_IS_TEST_SUITE_FAILED` (line 237). -/
def UT_IS_TEST_SUITE_FAILED (sd : __ut_test_suite_desc) : Bool :=
  ! UT_IS_TEST_SUITE_SUCCESSED sd
/-- One iteration of the test loop of `__ut_run_test_suite`
(lines 262-299, before the suite-level tally): mark the test started, reset
its counters, run `before_each`, run the body only when the test is still
successful, then run `after_each` unconditionally.  `i` is the loop index,
used only to tag the trace. -/
def runOneTest (before after : List (Bool × String)) (i : Nat)
    (d : __ut_test_desc) : __ut_test_desc × List UTEvent :=
  let d0 : __ut_test_desc :=
    { d with started := true, performed_count := 0, successed_count := 0 }
  let rb := runAsserts before d0.performed_count d0.successed_count
  let d1 : __ut_test_desc :=
    { d0 with performed_count := rb.1, successed_count := rb.2.1 }
  let bodyRes : __ut_test_desc × List UTEvent :=
    if UT_IS_TEST_SUCCESSED d1 then
      let rf := runAsserts d1.func rb.1 rb.2.1
      ({ d1 with performed_count := rf.1, successed_count := rf.2.1 },
        UTEvent.bodyInvoked i :: rf.2.2)
    else (d1, [])
  let ra := runAsserts after bodyRes.1.performed_count bodyRes.1.successed_count
  let d3 : __ut_test_desc :=
    { bodyRes.1 with performed_count := ra.1, successed_count := ra.2.1 }
  (d3, UTEvent.beforeEachInvoked i :: rb.2.2 ++ bodyRes.2
        ++ UTEvent.afterEachInvoked i :: ra.2.2)
/-- The test loop of `__ut_run_test_suite` (lines 262-299): for each test,
increment the suite's `performed_count`, run the test (`runOneTest`), then
tally it — a successful test increments the suite's `successed_count` and
fires `UT_ON_SUCCESSFUL_TEST`, a failed one fires `UT_ON_FAILED_TEST`.
Returns the updated descriptors, suite counters and trace. -/
def runTestsLoop (before after : List (Bool × String)) :
    Nat → Nat → Nat → List __ut_test_desc →
    List __ut_test_desc × Nat × Nat × List UTEvent
  | _, p, s, [] => ([], p, s, [])
  | i, p, s, d :: rest =>
    let rt := runOneTest before after i d
    let tallied : Nat × List UTEvent :=
      if UT_IS_TEST_SUCCESSED rt.1 then
        (s + 1, [UTEvent.testPassedObserver rt.1])
      else (s, [UTEvent.testFailedObserver rt.1])
    let rr := runTestsLoop before after (i + 1) (p + 1) tallied.1 rest
    (rt.1 :: rr.1, rr.2.1, rr.2.2.1, rt.2 ++ tallied.2 ++ rr.2.2.2)
/-- `__ut_run_test_suite` (lines 245-306): mark the suite started and reset
its counters; run `startup` (its assertions hit the suite counters) and
return `false` at once if the suite is no longer successful; otherwise run
every test, run `teardown`, and return `UT_IS_TEST_SUITE_SUCCESSED`.
The result is (verdict, final suite descriptor, event trace). -/
def __ut_run_test_suite (sd : __ut_test_suite_desc) :
    Bool × __ut_test_suite_desc × List UTEvent :=
  let s0 : __ut_test_suite_desc :=
    { sd with started := true, performed_count := 0, successed_count := 0 }
  let rs := runAsserts sd.startup s0.performed_count s0.successed_count
  let s1 : __ut_test_suite_desc :=
    { s0 with performed_count := rs.1, successed_count := rs.2.1 }
  if ! UT_IS_TEST_SUITE_SUCCESSED s1 then
    (false, s1, UTEvent.startupInvoked :: rs.2.2)
  else
    let rl := runTestsLoop sd.before_each sd.after_each 0
      s1.performed_count s1.successed_count s1.test_descs
    let s2 : __ut_test_suite_desc :=
      { s1 with test_descs := rl.1, performed_count := rl.2.1,
                successed_count := rl.2.2.1 }
    let rt := runAsserts sd.teardown s2.performed_count s2.successed_count
    let s3 : __ut_test_suite_desc :=
      { s2 with performed_count := rt.1, successed_count := rt.2.1 }
    (UT_IS_TEST_SUITE_SUCCESSED s3, s3,
      UTEvent.startupInvoked :: rs.2.2 ++ rl.2.2.2
        ++ UTEvent.teardownInvoked :: rt.2.2)
/-- Final descriptor of one attempted test: counters are reset, `before_each`
runs, the body runs only when the before-hook left the test successful, and
`after_each` runs unconditionally. -/
def testFinal (before after : List (Bool × String)) (d : __ut_test_desc) :
    __ut_test_desc :=
  if assertsPerformed before = assertsSuccessed before then
    { d with
      started := true,
      performed_count :=
        assertsPerformed before + assertsPerformed d.func + assertsPerformed after,
      successed_count :=
        assertsSuccessed before + assertsSuccessed d.func + assertsSuccessed after }
  else
    { d with
      started := true,
      performed_count := assertsPerformed before + assertsPerformed after,
      successed_count := assertsSuccessed before + assertsSuccessed after }
/-- Event trace of one attempted test. -/
def testEvents (before after : List (Bool × String)) (i : Nat)
    (d : __ut_test_desc) : List UTEvent :=
  UTEvent.beforeEachInvoked i :: assertEvents before
    ++ (if assertsPerformed before = assertsSuccessed before then
          UTEvent.bodyInvoked i :: assertEvents d.func
        else [])
    ++ UTEvent.afterEachInvoked i :: assertEvents after
/-- Event trace of the test loop starting at index `i`. -/
def loopEvents (before after : List (Bool × String)) :
    Nat → List __ut_test_desc → List UTEvent
  | _, [] => []
  | i, d :: rest =>
    testEvents before after i d
      ++ (if UT_IS_TEST_SUCCESSED (testFinal before after d) then
            [UTEvent.testPassedObserver (testFinal before after d)]
          else [UTEvent.testFailedObserver (testFinal before after d)])
      ++ loopEvents before after (i + 1) rest
/-- Suite state after a run that got past startup: startup assertions seed the
suite counters, each test adds one to `performed_count` and each successful
test one to `successed_count`, and teardown assertions land on top. -/
def suiteFinal (sd : __ut_test_suite_desc) : __ut_test_suite_desc :=
  { sd with
    started := true,
    test_descs := sd.test_descs.map (testFinal sd.before_each sd.after_each),
    performed_count :=
      assertsPerformed sd.startup + sd.test_descs.length + assertsPerformed sd.teardown,
    successed_count :=
      assertsSuccessed sd.startup
        + List.countP (fun d => UT_IS_TEST_SUCCESSED d)
            (sd.test_descs.map (testFinal sd.before_each sd.after_each))
        + assertsSuccessed sd.teardown }
/-- Number of occurrences of an event in a trace. -/
def countE (e : UTEvent) : List UTEvent → Nat
  | [] => 0
  | x :: rest => (if x = e then 1 else 0) + countE e rest
/-- Indices of `beforeEachInvoked` events, in trace order. -/
def beforeEachIndices : List UTEvent → List Nat
  | [] => []
  | UTEvent.beforeEachInvoked i :: rest => i :: beforeEachIndices rest
  | _ :: rest => beforeEachIndices rest
/-- Concrete suite whose startup hook fails its second assertion. -/
def suiteC3 : __ut_test_suite_desc :=
  { name := "suiteC3", startup := [(true, "s1"), (false, "s2")],
    teardown := [(true, "td")], before_each := [(true, "be")],
    after_each := [(true, "ae")],
    test_descs := [{ name := "t", func := [(true, "a")], started := false,
                     performed_count := 0, successed_count := 0 }],
    started := false, performed_count := 0, successed_count := 0 }
/-- Suite for the C5 witness: the first test's body fails, the second body is
skipped because `before_each` is failing; `after_each` still fires once for
each and not for index 2. -/
def suiteC5 : __ut_test_suite_desc :=
  { name := "suiteC5", startup := [(true, "s")], teardown := [],
    before_each := [(false, "be")], after_each := [(true, "ae")],
    test_descs := [{ name := "t0", func := [(false, "x")], started := false,
                     performed_count := 0, successed_count := 0 },
                   { name := "t1", func := [(true, "y")], started := false,
                     performed_count := 0, successed_count := 0 }],
    started := false, performed_count := 0, successed_count := 0 }
/-- Suite for the C6 witness: passing `before_each`, so the failing body of
its only test runs exactly once. -/
def suiteC6 : __ut_test_suite_desc :=
  { name := "suiteC6", startup := [], teardown := [(true, "td")],
    before_each := [(true, "be")], after_each := [],
    test_descs := [{ name := "t0", func := [(false, "x")], started := false,
                     performed_count := 0, successed_count := 0 }],
    started := false, performed_count := 0, successed_count := 0 }
/-- Never-started descriptors used by the C10 witness. -/
def testC10 : __ut_test_desc :=
  { name := "testC10", func := [], started := false,
    performed_count := 0, successed_count := 0 }
/-- Never-started suite descriptor used by the C10 witness. -/
def suiteC10 : __ut_test_suite_desc :=
  { name := "suiteC10", startup := [], teardown := [], before_each := [],
    after_each := [], test_descs := [], started := false,
    performed_count := 0, successed_count := 0 }

/-- Suite whose only assertion failure sits in the teardown hook: startup is
empty (so it cannot fail) and the test list is empty (so every attempted test
is vacuously successful). -/
def suiteC2cex : __ut_test_suite_desc :=
  { name := "suiteC2cex", startup := [], teardown := [(false, "teardown fails")],
    before_each := [], after_each := [], test_descs := [],
    started := false, performed_count := 0, successed_count := 0 }

/-- Suite with an empty test list whose startup hook performs one passing
assertion; that assertion is counted in the suite descriptor. -/
def suiteC4cex : __ut_test_suite_desc :=
  { name := "suiteC4cex", startup := [(true, "startup check")], teardown := [],
    before_each := [], after_each := [], test_descs := [],
    started := false, performed_count := 0, successed_count := 0 }

/-- Suite used by the C7 witness: passing startup assertion, failing test
body, failing teardown assertion. -/
def suiteC7 : __ut_test_suite_desc :=
  { name := "suiteC7", startup := [(true, "s")], teardown := [(false, "t")],
    before_each := [], after_each := [],
    test_descs := [{ name := "t0", func := [(false, "x")], started := false,
                     performed_count := 0, successed_count := 0 }],
    started := false, performed_count := 0, successed_count := 0 }

/-- Suite used by the C9 witness: one passing startup assertion, no test,
one failing teardown assertion. -/
def suiteC9 : __ut_test_suite_desc :=
  { name := "suiteC9", startup := [(true, "s")], teardown := [(false, "t")],
    before_each := [], after_each := [], test_descs := [],
    started := false, performed_count := 0, successed_count := 0 }

/-- Suite used by the C4 witness: passing startup, two tests of which the
first fails, failing teardown. -/
def suiteC4w : __ut_test_suite_desc :=
  { name := "suiteC4w", startup := [(true, "s")], teardown := [(false, "t")],
    before_each := [(true, "be")], after_each := [(true, "ae")],
    test_descs := [{ name := "t0", func := [(false, "x")], started := false,
                     performed_count := 0, successed_count := 0 },
                   { name := "t1", func := [(true, "y")], started := false,
                     performed_count := 0, successed_count := 0 }],
    started := false, performed_count := 0, successed_count := 0 }

/-! ## Theorems -/

theorem runAsserts_eq (l : List (Bool × String)) : ∀ p s : Nat,
    runAsserts l p s = (p + assertsPerformed l, s + assertsSuccessed l, assertEvents l) := by
  induction l with
  | nil => intro p s; simp [runAsserts, assertsPerformed, assertsSuccessed, assertEvents]
  | cons hd tl ih =>
    intro p s
    obtain ⟨b, m⟩ := hd
    by_cases hb : b = true
    · subst hb
      simp only [runAsserts, assertsPerformed, assertsSuccessed, assertEvents, if_true, ih]
      refine Prod.ext ?_ (Prod.ext ?_ rfl) <;> simp <;> omega
    · simp only [Bool.not_eq_true] at hb
      subst hb
      simp [runAsserts, assertsPerformed, assertsSuccessed, assertEvents]
theorem assertsSuccessed_le_performed (l : List (Bool × String)) :
    assertsSuccessed l ≤ assertsPerformed l := by
  induction l with
  | nil => simp [assertsPerformed, assertsSuccessed]
  | cons hd tl ih =>
    obtain ⟨b, m⟩ := hd
    by_cases hb : b = true <;> simp [assertsPerformed, assertsSuccessed, hb]
    omega
theorem assertsPerformed_eq_successed_iff (l : List (Bool × String)) :
    assertsPerformed l = assertsSuccessed l ↔ ∀ x ∈ l, x.1 = true := by
  induction l with
  | nil => simp [assertsPerformed, assertsSuccessed]
  | cons hd tl ih =>
    obtain ⟨b, m⟩ := hd
    by_cases hb : b = true
    · subst hb
      simpa [assertsPerformed, assertsSuccessed] using ih
    · simp only [Bool.not_eq_true] at hb
      subst hb
      simp [assertsPerformed, assertsSuccessed]
theorem assertsPerformed_of_allTrue (l : List (Bool × String))
    (h : ∀ x ∈ l, x.1 = true) : assertsPerformed l = l.length := by
  induction l with
  | nil => simp [assertsPerformed]
  | cons hd tl ih =>
    obtain ⟨b, m⟩ := hd
    have hb : b = true := h (b, m) (by simp)
    subst hb
    simp [assertsPerformed, ih fun x hx => h x (List.mem_cons_of_mem _ hx)]
theorem assertsSuccessed_of_allTrue (l : List (Bool × String))
    (h : ∀ x ∈ l, x.1 = true) : assertsSuccessed l = l.length := by
  induction l with
  | nil => simp [assertsSuccessed]
  | cons hd tl ih =>
    obtain ⟨b, m⟩ := hd
    have hb : b = true := h (b, m) (by simp)
    subst hb
    simp [assertsSuccessed, ih fun x hx => h x (List.mem_cons_of_mem _ hx)]
theorem mem_assertEvents (l : List (Bool × String)) (e : UTEvent)
    (he : e ∈ assertEvents l) :
    (∃ m, e = UTEvent.assertPassed m) ∨ ∃ m, e = UTEvent.assertFailed m := by
  induction l with
  | nil => simp [assertEvents] at he
  | cons hd tl ih =>
    obtain ⟨b, m⟩ := hd
    by_cases hb : b = true
    · subst hb
      simp only [assertEvents, if_true, List.mem_cons] at he
      rcases he with h | h
      · exact Or.inl ⟨m, h⟩
      · exact ih h
    · simp only [Bool.not_eq_true] at hb
      subst hb
      simp only [assertEvents, Bool.false_eq_true, if_false, List.mem_singleton] at he
      exact Or.inr ⟨m, he⟩
theorem runOneTest_eq (before after : List (Bool × String)) (i : Nat)
    (d : __ut_test_desc) :
    runOneTest before after i d = (testFinal before after d, testEvents before after i d) := by
  by_cases hc : assertsPerformed before = assertsSuccessed before
  · simp [runOneTest, runAsserts_eq, UT_IS_TEST_SUCCESSED, UT_IS_TEST_STARTED,
      testFinal, testEvents, hc]
  · simp [runOneTest, runAsserts_eq, UT_IS_TEST_SUCCESSED, UT_IS_TEST_STARTED,
      testFinal, testEvents, hc]
theorem runTestsLoop_eq (before after : List (Bool × String)) :
    ∀ (tests : List __ut_test_desc) (i p s : Nat),
    runTestsLoop before after i p s tests =
      (tests.map (testFinal before after),
       p + tests.length,
       s + List.countP (fun d => UT_IS_TEST_SUCCESSED d) (tests.map (testFinal before after)),
       loopEvents before after i tests) := by
  intro tests
  induction tests with
  | nil => intro i p s; simp [runTestsLoop, loopEvents]
  | cons d rest ih =>
    intro i p s
    by_cases hc : UT_IS_TEST_SUCCESSED (testFinal before after d) = true
    · simp only [runTestsLoop, runOneTest_eq, hc, if_true, ih, loopEvents,
        List.map_cons, List.countP_cons, List.length_cons]
      refine Prod.ext rfl (Prod.ext ?_ (Prod.ext ?_ (by simp)))
      all_goals simp [hc]
      all_goals omega
    · simp only [runTestsLoop, runOneTest_eq, hc, if_false, ih, loopEvents,
        List.map_cons, List.countP_cons, List.length_cons]
      refine Prod.ext rfl (Prod.ext ?_ (Prod.ext ?_ (by simp [hc])))
      all_goals simp [hc]
      all_goals omega
theorem run_suite_startup_failed (sd : __ut_test_suite_desc)
    (h : assertsPerformed sd.startup ≠ assertsSuccessed sd.startup) :
    __ut_run_test_suite sd =
      (false,
       { sd with
         started := true,
         performed_count := assertsPerformed sd.startup,
         successed_count := assertsSuccessed sd.startup },
       UTEvent.startupInvoked :: assertEvents sd.startup) := by
  simp [__ut_run_test_suite, runAsserts_eq, UT_IS_TEST_SUITE_SUCCESSED,
    UT_IS_TEST_SUITE_STARTED, h]
theorem run_suite_normal (sd : __ut_test_suite_desc)
    (h : assertsPerformed sd.startup = assertsSuccessed sd.startup) :
    __ut_run_test_suite sd =
      (UT_IS_TEST_SUITE_SUCCESSED (suiteFinal sd),
       suiteFinal sd,
       UTEvent.startupInvoked :: assertEvents sd.startup
         ++ loopEvents sd.before_each sd.after_each 0 sd.test_descs
         ++ UTEvent.teardownInvoked :: assertEvents sd.teardown) := by
  simp only [__ut_run_test_suite, runAsserts_eq, runTestsLoop_eq, UT_IS_TEST_SUITE_SUCCESSED,
    UT_IS_TEST_SUITE_STARTED, suiteFinal, Nat.zero_add, h]
  simp [h]
theorem countE_append (e : UTEvent) (l1 l2 : List UTEvent) :
    countE e (l1 ++ l2) = countE e l1 + countE e l2 := by
  induction l1 with
  | nil => simp [countE]
  | cons x rest ih => simp [countE, ih]; omega
theorem countE_eq_zero (e : UTEvent) (l : List UTEvent) (h : e ∉ l) :
    countE e l = 0 := by
  induction l with
  | nil => simp [countE]
  | cons x rest ih =>
    have hx : ¬ x = e := fun he => h (he ▸ List.mem_cons_self x rest)
    simp only [countE, if_neg hx, Nat.zero_add]
    exact ih fun hm => h (List.mem_cons_of_mem x hm)
theorem countE_cons_ne (e x : UTEvent) (l : List UTEvent) (h : ¬ x = e) :
    countE e (x :: l) = countE e l := by
  simp [countE, h]

theorem countE_assertEvents_after (j : Nat) (l : List (Bool × String)) :
    countE (UTEvent.afterEachInvoked j) (assertEvents l) = 0 := by
  refine countE_eq_zero _ _ fun hm => ?_
  rcases mem_assertEvents l _ hm with ⟨m, hc⟩ | ⟨m, hc⟩ <;> exact absurd hc (by simp)
theorem countE_assertEvents_body (j : Nat) (l : List (Bool × String)) :
    countE (UTEvent.bodyInvoked j) (assertEvents l) = 0 := by
  refine countE_eq_zero _ _ fun hm => ?_
  rcases mem_assertEvents l _ hm with ⟨m, hc⟩ | ⟨m, hc⟩ <;> exact absurd hc (by simp)
theorem countE_testEvents_after (before after : List (Bool × String))
    (i j : Nat) (d : __ut_test_desc) :
    countE (UTEvent.afterEachInvoked j) (testEvents before after i d) =
      if j = i then 1 else 0 := by
  by_cases hc : assertsPerformed before = assertsSuccessed before <;>
    simp [testEvents, hc, countE, countE_append, countE_assertEvents_after] <;>
    split_ifs <;> omega
theorem countE_testEvents_body (before after : List (Bool × String))
    (i j : Nat) (d : __ut_test_desc) :
    countE (UTEvent.bodyInvoked j) (testEvents before after i d) =
      if j = i ∧ assertsPerformed before = assertsSuccessed before then 1 else 0 := by
  by_cases hc : assertsPerformed before = assertsSuccessed before <;>
    by_cases hj : j = i <;>
      simp [testEvents, hc, hj, countE, countE_append, countE_assertEvents_body]
  all_goals omega
theorem countE_loopEvents_after (before after : List (Bool × String)) :
    ∀ (tests : List __ut_test_desc) (i j : Nat),
    countE (UTEvent.afterEachInvoked j) (loopEvents before after i tests) =
      if i ≤ j ∧ j < i + tests.length then 1 else 0 := by
  intro tests
  induction tests with
  | nil =>
    intro i j
    simp only [loopEvents, countE, List.length_nil, Nat.add_zero]
    split_ifs <;> omega
  | cons d rest ih =>
    intro i j
    have hobs : countE (UTEvent.afterEachInvoked j)
        (if UT_IS_TEST_SUCCESSED (testFinal before after d) then
          [UTEvent.testPassedObserver (testFinal before after d)]
        else [UTEvent.testFailedObserver (testFinal before after d)]) = 0 := by
      split <;> simp [countE]
    simp only [loopEvents, countE_append, countE_testEvents_after, hobs, ih,
      List.length_cons]
    split_ifs <;> omega
theorem countE_loopEvents_body (before after : List (Bool × String)) :
    ∀ (tests : List __ut_test_desc) (i j : Nat),
    countE (UTEvent.bodyInvoked j) (loopEvents before after i tests) =
      if (i ≤ j ∧ j < i + tests.length)
          ∧ assertsPerformed before = assertsSuccessed before then 1 else 0 := by
  intro tests
  induction tests with
  | nil =>
    intro i j
    simp only [loopEvents, countE, List.length_nil, Nat.add_zero]
    split_ifs with hx
    · exact absurd hx.1.2 (by omega)
    · rfl
  | cons d rest ih =>
    intro i j
    have hobs : countE (UTEvent.bodyInvoked j)
        (if UT_IS_TEST_SUCCESSED (testFinal before after d) then
          [UTEvent.testPassedObserver (testFinal before after d)]
        else [UTEvent.testFailedObserver (testFinal before after d)]) = 0 := by
      split <;> simp [countE]
    simp only [loopEvents, countE_append, countE_testEvents_body, hobs, ih,
      List.length_cons]
    split_ifs <;> omega
theorem beforeEachIndices_append (l1 l2 : List UTEvent) :
    beforeEachIndices (l1 ++ l2) = beforeEachIndices l1 ++ beforeEachIndices l2 := by
  induction l1 with
  | nil => simp [beforeEachIndices]
  | cons x rest ih => cases x <;> simp [beforeEachIndices, ih]
theorem beforeEachIndices_assertEvents (l : List (Bool × String)) :
    beforeEachIndices (assertEvents l) = [] := by
  induction l with
  | nil => simp [assertEvents, beforeEachIndices]
  | cons hd rest ih =>
    obtain ⟨b, m⟩ := hd
    by_cases hb : b = true <;> simp [assertEvents, beforeEachIndices, hb, ih]
theorem beforeEachIndices_testEvents (before after : List (Bool × String))
    (i : Nat) (d : __ut_test_desc) :
    beforeEachIndices (testEvents before after i d) = [i] := by
  by_cases hc : assertsPerformed before = assertsSuccessed before <;>
    simp [testEvents, hc, beforeEachIndices, beforeEachIndices_append,
      beforeEachIndices_assertEvents]
theorem beforeEachIndices_loopEvents (before after : List (Bool × String)) :
    ∀ (tests : List __ut_test_desc) (i : Nat),
    beforeEachIndices (loopEvents before after i tests) =
      List.range' i tests.length := by
  intro tests
  induction tests with
  | nil => intro i; simp [loopEvents, beforeEachIndices]
  | cons d rest ih =>
    intro i
    have hobs : beforeEachIndices
        (if UT_IS_TEST_SUCCESSED (testFinal before after d) then
          [UTEvent.testPassedObserver (testFinal before after d)]
        else [UTEvent.testFailedObserver (testFinal before after d)]) = [] := by
      split <;> rfl
    simp only [loopEvents, beforeEachIndices_append, beforeEachIndices_testEvents,
      hobs, ih, List.length_cons, List.range'_succ, List.nil_append,
      List.singleton_append]
theorem testFinal_func (before after : List (Bool × String)) (d : __ut_test_desc) :
    (testFinal before after d).func = d.func := by
  unfold testFinal; split <;> rfl
theorem testFinal_name (before after : List (Bool × String)) (d : __ut_test_desc) :
    (testFinal before after d).name = d.name := by
  unfold testFinal; split <;> rfl
theorem testFinal_started (before after : List (Bool × String)) (d : __ut_test_desc) :
    (testFinal before after d).started = true := by
  unfold testFinal; split <;> rfl
theorem testFinal_counters_le (before after : List (Bool × String)) (d : __ut_test_desc) :
    (testFinal before after d).successed_count ≤ (testFinal before after d).performed_count := by
  have h1 := assertsSuccessed_le_performed before
  have h2 := assertsSuccessed_le_performed after
  have h3 := assertsSuccessed_le_performed d.func
  unfold testFinal; split <;> simp <;> omega
theorem testFinal_idem (before after : List (Bool × String)) (d : __ut_test_desc) :
    testFinal before after (testFinal before after d) = testFinal before after d := by
  cases d
  unfold testFinal
  split <;> rfl
theorem testEvents_congr (before after : List (Bool × String)) (i : Nat)
    (d d' : __ut_test_desc) (h : d.func = d'.func) :
    testEvents before after i d = testEvents before after i d' := by
  simp [testEvents, h]
theorem map_testFinal_idem (before after : List (Bool × String))
    (tests : List __ut_test_desc) :
    (tests.map (testFinal before after)).map (testFinal before after)
      = tests.map (testFinal before after) := by
  rw [List.map_map]
  exact List.map_congr_left fun d _ => testFinal_idem before after d
theorem loopEvents_map_testFinal (before after : List (Bool × String)) :
    ∀ (tests : List __ut_test_desc) (i : Nat),
    loopEvents before after i (tests.map (testFinal before after))
      = loopEvents before after i tests := by
  intro tests
  induction tests with
  | nil => intro i; rfl
  | cons d rest ih =>
    intro i
    simp only [List.map_cons, loopEvents, ih]
    rw [testEvents_congr before after i (testFinal before after d) d
      (testFinal_func before after d), testFinal_idem]
theorem suiteFinal_idem (sd : __ut_test_suite_desc) :
    suiteFinal (suiteFinal sd) = suiteFinal sd := by
  simp [suiteFinal, map_testFinal_idem, List.length_map, -List.countP_map, -List.map_map]
theorem assertEvents_of_allTrue (l : List (Bool × String)) (h : ∀ x ∈ l, x.1 = true) :
    assertEvents l = l.map fun x => UTEvent.assertPassed x.2 := by
  induction l with
  | nil => rfl
  | cons hd tl ih =>
    obtain ⟨b, m⟩ := hd
    have hb : b = true := h (b, m) (by simp)
    subst hb
    simp [assertEvents, ih fun x hx => h x (List.mem_cons_of_mem _ hx)]
theorem assertsPerformed_append_fail (t rest : List (Bool × String)) (m : String)
    (h : ∀ x ∈ t, x.1 = true) :
    assertsPerformed (t ++ (false, m) :: rest) = t.length + 1 := by
  induction t with
  | nil => simp [assertsPerformed]
  | cons hd tl ih =>
    obtain ⟨b, m'⟩ := hd
    have hb : b = true := h (b, m') (by simp)
    subst hb
    simp [assertsPerformed, ih fun x hx => h x (List.mem_cons_of_mem _ hx)]
theorem assertsSuccessed_append_fail (t rest : List (Bool × String)) (m : String)
    (h : ∀ x ∈ t, x.1 = true) :
    assertsSuccessed (t ++ (false, m) :: rest) = t.length := by
  induction t with
  | nil => simp [assertsSuccessed]
  | cons hd tl ih =>
    obtain ⟨b, m'⟩ := hd
    have hb : b = true := h (b, m') (by simp)
    subst hb
    simp [assertsSuccessed, ih fun x hx => h x (List.mem_cons_of_mem _ hx)]
theorem assertEvents_append_fail (t rest : List (Bool × String)) (m : String)
    (h : ∀ x ∈ t, x.1 = true) :
    assertEvents (t ++ (false, m) :: rest)
      = (t.map fun x => UTEvent.assertPassed x.2) ++ [UTEvent.assertFailed m] := by
  induction t with
  | nil => simp [assertEvents]
  | cons hd tl ih =>
    obtain ⟨b, m'⟩ := hd
    have hb : b = true := h (b, m') (by simp)
    subst hb
    simp [assertEvents, ih fun x hx => h x (List.mem_cons_of_mem _ hx)]
/-- C1: in any test body or hook invocation running a sequence of `UT_ASSERT`s,
every true assertion increments both `performed_count` and `successed_count`
(firing the successful-assertion observer) and control continues, while a
false assertion increments `performed_count` only, fires the failed-assertion
observer with its message, and terminates the enclosing function, so the
assertions after it are neither evaluated nor counted.  Stated for an
arbitrary all-true prefix `t` followed by a failing assertion and an arbitrary
remainder `rest` that contributes nothing. -/
theorem claim_C1_assert_tracker (t rest : List (Bool × String)) (m : String)
    (p s : Nat) (ht : ∀ x ∈ t, x.1 = true) :
    runAsserts t p s
      = (p + t.length, s + t.length, t.map fun x => UTEvent.assertPassed x.2)
    ∧ runAsserts (t ++ (false, m) :: rest) p s
      = (p + (t.length + 1), s + t.length,
         (t.map fun x => UTEvent.assertPassed x.2) ++ [UTEvent.assertFailed m]) := by
  constructor
  · rw [runAsserts_eq, assertsPerformed_of_allTrue t ht,
      assertsSuccessed_of_allTrue t ht, assertEvents_of_allTrue t ht]
  · rw [runAsserts_eq, assertsPerformed_append_fail t rest m ht,
      assertsSuccessed_append_fail t rest m ht, assertEvents_append_fail t rest m ht]
theorem claim_C1_assert_tracker_witness :
    runAsserts [(true, "a")] 2 1
      = (2 + 1, 1 + 1, [(true, "a")].map fun x => UTEvent.assertPassed x.2)
    ∧ runAsserts ([(true, "a")] ++ (false, "b") :: [(true, "c")]) 2 1
      = (2 + (1 + 1), 1 + 1,
         ([(true, "a")].map fun x => UTEvent.assertPassed x.2)
           ++ [UTEvent.assertFailed "b"]) :=
  claim_C1_assert_tracker [(true, "a")] [(true, "c")] "b" 2 1 (by decide)
/-- C3: when the startup hook leaves the suite failed (its assertion script
performs more assertions than it passes), `__ut_run_test_suite` returns
`false` immediately: the test descriptors are untouched, the suite tallied no
test (its `performed_count` is exactly the startup assertion count), and the
trace holds nothing beyond the startup invocation and its assertion-observer
events — no before/after/body/teardown invocation and no test observer. -/
theorem claim_C3_startup_short_circuit (sd : __ut_test_suite_desc)
    (h : assertsPerformed sd.startup ≠ assertsSuccessed sd.startup) :
    (__ut_run_test_suite sd).1 = false
    ∧ (__ut_run_test_suite sd).2.1.test_descs = sd.test_descs
    ∧ (__ut_run_test_suite sd).2.1.performed_count = assertsPerformed sd.startup
    ∧ ∀ e ∈ (__ut_run_test_suite sd).2.2,
        e = UTEvent.startupInvoked
        ∨ (∃ m, e = UTEvent.assertPassed m) ∨ ∃ m, e = UTEvent.assertFailed m := by
  rw [run_suite_startup_failed sd h]
  refine ⟨rfl, rfl, rfl, ?_⟩
  intro e he
  rcases List.mem_cons.mp he with he | he
  · exact Or.inl he
  · rcases mem_assertEvents _ _ he with h1 | h1
    · exact Or.inr (Or.inl h1)
    · exact Or.inr (Or.inr h1)
theorem claim_C3_startup_short_circuit_witness :
    (__ut_run_test_suite suiteC3).1 = false
    ∧ (__ut_run_test_suite suiteC3).2.1.test_descs = suiteC3.test_descs
    ∧ (__ut_run_test_suite suiteC3).2.1.performed_count
        = assertsPerformed suiteC3.startup
    ∧ ∀ e ∈ (__ut_run_test_suite suiteC3).2.2,
        e = UTEvent.startupInvoked
        ∨ (∃ m, e = UTEvent.assertPassed m) ∨ ∃ m, e = UTEvent.assertFailed m :=
  claim_C3_startup_short_circuit suiteC3 (by decide)
/-- C5: in a run that gets past startup, the `after_each` hook is invoked
exactly once for each of the attempted tests (the indices below the test-list
length) and never for any other index — in particular it fires even when the
body failed or was skipped by a failing `before_each`. -/
theorem claim_C5_after_each_once (sd : __ut_test_suite_desc)
    (h : assertsPerformed sd.startup = assertsSuccessed sd.startup) (i : Nat) :
    countE (UTEvent.afterEachInvoked i) (__ut_run_test_suite sd).2.2
      = if i < sd.test_descs.length then 1 else 0 := by
  rw [run_suite_normal sd h, countE_append, countE_append,
    countE_cons_ne _ _ _ (by simp), countE_cons_ne _ _ _ (by simp),
    countE_assertEvents_after, countE_assertEvents_after,
    countE_loopEvents_after]
  split_ifs <;> omega
theorem claim_C5_after_each_once_witness :
    (countE (UTEvent.afterEachInvoked 1) (__ut_run_test_suite suiteC5).2.2
      = if 1 < suiteC5.test_descs.length then 1 else 0)
    ∧ (countE (UTEvent.afterEachInvoked 2) (__ut_run_test_suite suiteC5).2.2
      = if 2 < suiteC5.test_descs.length then 1 else 0) :=
  ⟨claim_C5_after_each_once suiteC5 (by decide) 1,
   claim_C5_after_each_once suiteC5 (by decide) 2⟩
/-- C6: for every attempted test, the body is invoked exactly once when the
`before_each` hook left the test successful (its reset counters still agree),
and never invoked when the hook left it failed. -/
theorem claim_C6_body_iff_before_ok (sd : __ut_test_suite_desc)
    (h : assertsPerformed sd.startup = assertsSuccessed sd.startup)
    (i : Nat) (hi : i < sd.test_descs.length) :
    countE (UTEvent.bodyInvoked i) (__ut_run_test_suite sd).2.2
      = if assertsPerformed sd.before_each = assertsSuccessed sd.before_each
        then 1 else 0 := by
  rw [run_suite_normal sd h, countE_append, countE_append,
    countE_cons_ne _ _ _ (by simp), countE_cons_ne _ _ _ (by simp),
    countE_assertEvents_body, countE_assertEvents_body,
    countE_loopEvents_body]
  split_ifs <;> omega
theorem claim_C6_body_iff_before_ok_witness :
    countE (UTEvent.bodyInvoked 0) (__ut_run_test_suite suiteC6).2.2
      = if assertsPerformed suiteC6.before_each
            = assertsSuccessed suiteC6.before_each then 1 else 0 :=
  claim_C6_body_iff_before_ok suiteC6 (by decide) 0 (by decide)
/-- C10: a never-started test descriptor is classified as skipped and,
because `UT_IS_TEST_FAILED` is the negation of `UT_IS_TEST_SUCCESSED` which
requires `started`, simultaneously as failed; likewise for a never-started
suite descriptor. -/
theorem claim_C10_skipped_is_failed (d : __ut_test_desc)
    (sd : __ut_test_suite_desc) (hd : d.started = false)
    (hs : sd.started = false) :
    UT_IS_TEST_SKIPPED d = true ∧ UT_IS_TEST_FAILED d = true
    ∧ UT_IS_TEST_SUITE_SKIPPED sd = true ∧ UT_IS_TEST_SUITE_FAILED sd = true := by
  simp [UT_IS_TEST_SKIPPED, UT_IS_TEST_FAILED, UT_IS_TEST_SUCCESSED,
    UT_IS_TEST_STARTED, UT_IS_TEST_SUITE_SKIPPED, UT_IS_TEST_SUITE_FAILED,
    UT_IS_TEST_SUITE_SUCCESSED, UT_IS_TEST_SUITE_STARTED, hd, hs]
theorem claim_C10_skipped_is_failed_witness :
    UT_IS_TEST_SKIPPED testC10 = true ∧ UT_IS_TEST_FAILED testC10 = true
    ∧ UT_IS_TEST_SUITE_SKIPPED suiteC10 = true
    ∧ UT_IS_TEST_SUITE_FAILED suiteC10 = true :=
  claim_C10_skipped_is_failed testC10 suiteC10 (by decide) (by decide)

/-- C7: `successed_count ≤ performed_count` is an invariant.  Every
`UT_ASSERT` step preserves it (first conjunct, at arbitrary intermediate
counters), and a whole suite run re-establishes it both on the suite
descriptor and on every test descriptor, given descriptors that start out
satisfying it (as all statically declared descriptors do, being initialised
to zero). -/
theorem claim_C7_invariant (sd : __ut_test_suite_desc)
    (h : ∀ d ∈ sd.test_descs, d.successed_count ≤ d.performed_count) :
    (∀ (l : List (Bool × String)) (p s : Nat), s ≤ p →
        (runAsserts l p s).2.1 ≤ (runAsserts l p s).1)
    ∧ (__ut_run_test_suite sd).2.1.successed_count
        ≤ (__ut_run_test_suite sd).2.1.performed_count
    ∧ ∀ d ∈ (__ut_run_test_suite sd).2.1.test_descs,
        d.successed_count ≤ d.performed_count := by
  refine ⟨?_, ?_, ?_⟩
  · intro l p s hps
    have h1 := assertsSuccessed_le_performed l
    rw [runAsserts_eq]
    exact Nat.add_le_add hps h1
  · by_cases hs : assertsPerformed sd.startup = assertsSuccessed sd.startup
    · rw [run_suite_normal sd hs]
      have h1 := assertsSuccessed_le_performed sd.startup
      have h2 := assertsSuccessed_le_performed sd.teardown
      have h3 := List.countP_le_length (fun d => UT_IS_TEST_SUCCESSED d)
        (l := sd.test_descs.map (testFinal sd.before_each sd.after_each))
      rw [List.length_map] at h3
      dsimp only [suiteFinal]
      omega
    · rw [run_suite_startup_failed sd hs]
      exact assertsSuccessed_le_performed sd.startup
  · intro d hd
    by_cases hs : assertsPerformed sd.startup = assertsSuccessed sd.startup
    · rw [run_suite_normal sd hs] at hd
      obtain ⟨d0, -, rfl⟩ := List.mem_map.mp hd
      exact testFinal_counters_le sd.before_each sd.after_each d0
    · rw [run_suite_startup_failed sd hs] at hd
      exact h d hd

theorem claim_C7_invariant_witness :
    ((∀ (l : List (Bool × String)) (p s : Nat), s ≤ p →
        (runAsserts l p s).2.1 ≤ (runAsserts l p s).1)
    ∧ (__ut_run_test_suite suiteC7).2.1.successed_count
        ≤ (__ut_run_test_suite suiteC7).2.1.performed_count
    ∧ ∀ d ∈ (__ut_run_test_suite suiteC7).2.1.test_descs,
        d.successed_count ≤ d.performed_count) :=
  claim_C7_invariant suiteC7 (by decide)

/-- C2 counterexample: on `suiteC2cex` the startup hook does not fail (its
script is empty) and every attempted test ended successful (the test list is
empty), yet `__ut_run_test_suite` returns `false`, because the teardown
hook's failing assertion lands on the suite counters before the final
`UT_IS_TEST_SUITE_SUCCESSED` check.  This refutes the claim's first
equivalence. -/
theorem claim_C2_counterexample :
    (∀ x ∈ suiteC2cex.startup, x.1 = true)
    ∧ (∀ d ∈ (__ut_run_test_suite suiteC2cex).2.1.test_descs,
        UT_IS_TEST_SUCCESSED d = true)
    ∧ (__ut_run_test_suite suiteC2cex).1 = false := by
  decide

/-- C2 (amended): the verdict of `__ut_run_test_suite` always equals
`UT_IS_TEST_SUITE_SUCCESSED` of the returned suite descriptor
(`performedCount = successCount` over the final counters), and it is `true`
iff the startup hook did not fail AND every attempted test ended successful
AND the teardown hook did not fail — the teardown conjunct being the
correction the counterexample forces. -/
theorem claim_C2_verdict (sd : __ut_test_suite_desc) :
    (__ut_run_test_suite sd).1
        = UT_IS_TEST_SUITE_SUCCESSED (__ut_run_test_suite sd).2.1
    ∧ ((__ut_run_test_suite sd).1 = true ↔
        (∀ x ∈ sd.startup, x.1 = true)
        ∧ (∀ d ∈ (__ut_run_test_suite sd).2.1.test_descs,
            d.started = true → UT_IS_TEST_SUCCESSED d = true)
        ∧ (∀ x ∈ sd.teardown, x.1 = true)) := by
  by_cases hs : assertsPerformed sd.startup = assertsSuccessed sd.startup
  · rw [run_suite_normal sd hs]
    refine ⟨rfl, ?_⟩
    have h2 := assertsSuccessed_le_performed sd.teardown
    have h3 := List.countP_le_length (fun d => UT_IS_TEST_SUCCESSED d)
      (l := sd.test_descs.map (testFinal sd.before_each sd.after_each))
    rw [List.length_map] at h3
    constructor
    · intro hv
      have hv' : (suiteFinal sd).performed_count = (suiteFinal sd).successed_count := by
        simpa [UT_IS_TEST_SUITE_SUCCESSED, UT_IS_TEST_SUITE_STARTED, suiteFinal]
          using hv
      dsimp only [suiteFinal] at hv'
      have hc1 : List.countP (fun d => UT_IS_TEST_SUCCESSED d)
          (sd.test_descs.map (testFinal sd.before_each sd.after_each))
            = (sd.test_descs.map (testFinal sd.before_each sd.after_each)).length := by
        rw [List.length_map]
        omega
      have hc2 : assertsPerformed sd.teardown = assertsSuccessed sd.teardown := by
        omega
      refine ⟨(assertsPerformed_eq_successed_iff sd.startup).mp hs, ?_,
        (assertsPerformed_eq_successed_iff sd.teardown).mp hc2⟩
      intro d hd _
      exact List.countP_eq_length.mp hc1 d hd
    · rintro ⟨hstart, htests, htd⟩
      have hc2 : assertsPerformed sd.teardown = assertsSuccessed sd.teardown :=
        (assertsPerformed_eq_successed_iff sd.teardown).mpr htd
      have hall : ∀ d ∈ sd.test_descs.map (testFinal sd.before_each sd.after_each),
          UT_IS_TEST_SUCCESSED d = true := by
        intro d hd
        obtain ⟨d0, -, hd0⟩ := List.mem_map.mp hd
        exact htests d hd (by rw [← hd0]; exact testFinal_started _ _ d0)
      have hcnt : List.countP (fun d => UT_IS_TEST_SUCCESSED d)
          (sd.test_descs.map (testFinal sd.before_each sd.after_each))
            = (sd.test_descs.map (testFinal sd.before_each sd.after_each)).length :=
        List.countP_eq_length.mpr hall
      rw [List.length_map] at hcnt
      simp only [UT_IS_TEST_SUITE_SUCCESSED, UT_IS_TEST_SUITE_STARTED, suiteFinal,
        Bool.true_and, beq_iff_eq]
      omega
  · rw [run_suite_startup_failed sd hs]
    constructor
    · have : (assertsPerformed sd.startup == assertsSuccessed sd.startup) = false :=
        beq_eq_false_iff_ne.mpr hs
      simp [UT_IS_TEST_SUITE_SUCCESSED, UT_IS_TEST_SUITE_STARTED, this]
    · apply iff_of_false
      · simp
      · rintro ⟨hstart, -, -⟩
        exact hs ((assertsPerformed_eq_successed_iff sd.startup).mpr hstart)

theorem beforeEachIndices_cons_startup (l : List UTEvent) :
    beforeEachIndices (UTEvent.startupInvoked :: l) = beforeEachIndices l := rfl

theorem beforeEachIndices_cons_teardown (l : List UTEvent) :
    beforeEachIndices (UTEvent.teardownInvoked :: l) = beforeEachIndices l := rfl

/-- C4 counterexample: `suiteC4cex` has zero declared tests and a startup
hook that does not fail, yet the suite descriptor's final `performed_count`
is 1, not 0: the passing startup assertion is counted in the same suite
counter as the test tally.  This refutes "`performedCount` equals N exactly"
and the "`performedCount = 0`" part of the empty-list scenario. -/
theorem claim_C4_counterexample :
    assertsPerformed suiteC4cex.startup = assertsSuccessed suiteC4cex.startup
    ∧ suiteC4cex.test_descs.length = 0
    ∧ (__ut_run_test_suite suiteC4cex).2.1.performed_count = 1 := by
  decide

/-- C4 (amended): when startup does not fail the runner attempts all N
declared tests in declaration order regardless of individual outcomes (the
before-each trace lists exactly the indices 0..N-1 in order), every final
test descriptor is started, and the suite's final `performed_count` equals N
plus the assertions performed by the startup and teardown hooks — equal to N
exactly only when those hooks perform none.  For an empty test list the
verdict is success iff the teardown hook does not fail. -/
theorem claim_C4_all_tests_attempted (sd : __ut_test_suite_desc)
    (h : assertsPerformed sd.startup = assertsSuccessed sd.startup) :
    beforeEachIndices (__ut_run_test_suite sd).2.2
        = List.range sd.test_descs.length
    ∧ (__ut_run_test_suite sd).2.1.test_descs.length = sd.test_descs.length
    ∧ (∀ d ∈ (__ut_run_test_suite sd).2.1.test_descs, d.started = true)
    ∧ (__ut_run_test_suite sd).2.1.performed_count
        = assertsPerformed sd.startup + sd.test_descs.length
            + assertsPerformed sd.teardown
    ∧ (sd.test_descs = [] →
        ((__ut_run_test_suite sd).1 = true ↔
          assertsPerformed sd.teardown = assertsSuccessed sd.teardown)) := by
  rw [run_suite_normal sd h]
  refine ⟨?_, ?_, ?_, rfl, ?_⟩
  · rw [beforeEachIndices_append, beforeEachIndices_append,
      beforeEachIndices_cons_startup, beforeEachIndices_cons_teardown,
      beforeEachIndices_assertEvents, beforeEachIndices_assertEvents,
      beforeEachIndices_loopEvents, List.range_eq_range']
    simp
  · simp [suiteFinal]
  · intro d hd
    obtain ⟨d0, -, rfl⟩ := List.mem_map.mp hd
    exact testFinal_started sd.before_each sd.after_each d0
  · intro h0
    simp only [UT_IS_TEST_SUITE_SUCCESSED, UT_IS_TEST_SUITE_STARTED, suiteFinal,
      h0, List.map_nil, List.length_nil, List.countP_nil, Bool.true_and,
      beq_iff_eq]
    constructor <;> omega

theorem claim_C4_all_tests_attempted_witness :
    beforeEachIndices (__ut_run_test_suite suiteC4w).2.2
        = List.range suiteC4w.test_descs.length
    ∧ (__ut_run_test_suite suiteC4w).2.1.test_descs.length
        = suiteC4w.test_descs.length
    ∧ (∀ d ∈ (__ut_run_test_suite suiteC4w).2.1.test_descs, d.started = true)
    ∧ (__ut_run_test_suite suiteC4w).2.1.performed_count
        = assertsPerformed suiteC4w.startup + suiteC4w.test_descs.length
            + assertsPerformed suiteC4w.teardown
    ∧ (suiteC4w.test_descs = [] →
        ((__ut_run_test_suite suiteC4w).1 = true ↔
          assertsPerformed suiteC4w.teardown
            = assertsSuccessed suiteC4w.teardown)) :=
  claim_C4_all_tests_attempted suiteC4w (by decide)

/-- C9: the suite descriptor's counters absorb startup and teardown
assertions and are read only after teardown, so (i) if every attempted test
is successful but the teardown hook fails an assertion, the runner returns
`false`; (ii) the final `performed_count` is the startup assertion count plus
the test count plus the teardown assertion count, hence (iii) any passing
startup assertion makes it exceed the number of attempted tests. -/
theorem claim_C9_suite_counters_absorb_hooks (sd : __ut_test_suite_desc)
    (h : assertsPerformed sd.startup = assertsSuccessed sd.startup) :
    ((∀ d ∈ (__ut_run_test_suite sd).2.1.test_descs,
        UT_IS_TEST_SUCCESSED d = true) →
      assertsPerformed sd.teardown ≠ assertsSuccessed sd.teardown →
      (__ut_run_test_suite sd).1 = false)
    ∧ (__ut_run_test_suite sd).2.1.performed_count
        = assertsPerformed sd.startup + sd.test_descs.length
            + assertsPerformed sd.teardown
    ∧ (0 < assertsPerformed sd.startup →
        sd.test_descs.length < (__ut_run_test_suite sd).2.1.performed_count) := by
  rw [run_suite_normal sd h]
  refine ⟨?_, rfl, ?_⟩
  · intro hall ht
    have hcnt : List.countP (fun d => UT_IS_TEST_SUCCESSED d)
        (sd.test_descs.map (testFinal sd.before_each sd.after_each))
          = (sd.test_descs.map (testFinal sd.before_each sd.after_each)).length :=
      List.countP_eq_length.mpr hall
    rw [List.length_map] at hcnt
    have : ¬ ((suiteFinal sd).performed_count = (suiteFinal sd).successed_count) := by
      dsimp only [suiteFinal]
      omega
    simp [UT_IS_TEST_SUITE_SUCCESSED, UT_IS_TEST_SUITE_STARTED, suiteFinal] at this ⊢
    omega
  · intro hk
    show sd.test_descs.length < (suiteFinal sd).performed_count
    dsimp only [suiteFinal]
    omega

theorem claim_C9_suite_counters_absorb_hooks_witness :
    ((∀ d ∈ (__ut_run_test_suite suiteC9).2.1.test_descs,
        UT_IS_TEST_SUCCESSED d = true) →
      assertsPerformed suiteC9.teardown ≠ assertsSuccessed suiteC9.teardown →
      (__ut_run_test_suite suiteC9).1 = false)
    ∧ (__ut_run_test_suite suiteC9).2.1.performed_count
        = assertsPerformed suiteC9.startup + suiteC9.test_descs.length
            + assertsPerformed suiteC9.teardown
    ∧ (0 < assertsPerformed suiteC9.startup →
        suiteC9.test_descs.length
          < (__ut_run_test_suite suiteC9).2.1.performed_count) :=
  claim_C9_suite_counters_absorb_hooks suiteC9 (by decide)

/-- C8: `__ut_run_test_suite` is idempotent on the suite descriptor: running
the suite a second time on the descriptor returned by the first run yields
the same verdict, the same final descriptor (including every test's
`started`/`performed_count`/`successed_count` fields) and the same trace,
because both runs reset the suite counters and each attempted test's
counters before using them. -/
theorem claim_C8_idempotent (sd : __ut_test_suite_desc) :
    __ut_run_test_suite ((__ut_run_test_suite sd).2.1) = __ut_run_test_suite sd := by
  by_cases h : assertsPerformed sd.startup = assertsSuccessed sd.startup
  · rw [run_suite_normal sd h]
    show __ut_run_test_suite (suiteFinal sd) = _
    rw [run_suite_normal (suiteFinal sd) h, suiteFinal_idem]
    show (_, _, UTEvent.startupInvoked :: assertEvents sd.startup
      ++ loopEvents sd.before_each sd.after_each 0
          (sd.test_descs.map (testFinal sd.before_each sd.after_each))
      ++ UTEvent.teardownInvoked :: assertEvents sd.teardown) = _
    rw [loopEvents_map_testFinal]
  · rw [run_suite_startup_failed sd h]
    show __ut_run_test_suite
      { sd with
        started := true,
        performed_count := assertsPerformed sd.startup,
        successed_count := assertsSuccessed sd.startup } = _
    have h' : assertsPerformed ({ sd with
        started := true,
        performed_count := assertsPerformed sd.startup,
        successed_count := assertsSuccessed sd.startup } :
          __ut_test_suite_desc).startup
      ≠ assertsSuccessed ({ sd with
        started := true,
        performed_count := assertsPerformed sd.startup,
        successed_count := assertsSuccessed sd.startup } :
          __ut_test_suite_desc).startup := h
    rw [run_suite_startup_failed _ h']
